import Mathlib

/-!
# Verification of the `get-recursive-hoc` tree-composition engine

Shallow embedding of `src/index.tsx` (the only algorithmic source file of the
repository).  The TypeScript code builds, from a declarative structure of
nodes and a registry of React components, one composed component that renders
the whole hierarchy and routes slices of a single flat property bag to each
node.

Modelling choices, all taken from the source:
* JavaScript property-bag values are modelled by `Value`: objects are
  association lists in insertion order, and the two primitive kinds the
  development needs (strings and numbers) are explicit constructors.
  Object-spread semantics follow JavaScript: spreading an object copies its
  own enumerable properties in order (assignment to an existing key keeps the
  key's position), spreading a string contributes one index key per character
  (`{...\x7b'ab'\x7d}` is `\x7b0:'a',1:'b'\x7d`), and spreading `undefined` or
  a number contributes nothing.
* `undefined` results of a JS lookup are modelled with `Option`.
* React components (`ElementType | typeof Fragment`) are a closed inductive:
  the `Fragment` sentinel, opaque caller-supplied components
  (`elementType name`), and the closures produced by `getShape`
  (`shape ...`), whose invocation semantics live in `render`.
* `render` computes the fully expanded element tree produced by invoking a
  composed component with a property bag: an opaque component becomes one
  element node carrying exactly the props it receives; `Fragment` renders
  nothing (leaf position) or just its children (container position).
* `getRecursiveHOC` destructures `[next, ...other]`; on an empty structure
  `next` is `undefined` and `next.children` throws a `TypeError`.  The
  embedding returns `Option`: `none` models that throw.
-/

/-- JavaScript values stored in a property bag: objects (insertion-ordered
association lists), strings and numbers. -/
inductive Value : Type where
  | obj : List (String × Value) → Value
  | str : String → Value
  | num : Int → Value

/-- `ComponentProps` from `types.ts`: a flat mapping from string keys to
values, modelled as a JS object (insertion-ordered association list). -/
abbrev ComponentProps : Type := List (String × Value)

/-- JS property lookup `props[key]`: first matching key, `none` for
`undefined`. -/
def getKey : ComponentProps → String → Option Value
  | [], _ => none
  | (k, v) :: rest, key => if k = key then some v else getKey rest key

/-- JS property assignment on an object literal under construction: an
existing key keeps its position and gets the new value, a new key is appended
at the end. -/
def setKey : List (String × Value) → String → Value → List (String × Value)
  | [], k, v => [(k, v)]
  | (k', v') :: rest, k, v =>
      if k = k' then (k, v) :: rest else (k', v') :: setKey rest k v

/-- Spreading an object's fields into an object literal, left to right. -/
def spreadFields (target : List (String × Value)) (fields : List (String × Value)) :
    List (String × Value) :=
  fields.foldl (fun acc kv => setKey acc kv.1 kv.2) target

/-- The own enumerable properties of a JS string: one index key per
character, `\x7b0:'a',1:'b',...\x7d`. -/
def stringFields (s : String) : List (String × Value) :=
  s.toList.enum.map (fun p => (toString p.1, Value.str (String.singleton p.2)))

/-- JS object-spread `\x7b...target, ...v\x7d` of a possibly-undefined value
`v`: objects spread their fields, strings spread their index characters,
numbers and `undefined` contribute nothing.  Never raises. -/
def spreadValue (target : ComponentProps) : Option Value → ComponentProps
  | some (Value.obj fields) => spreadFields target fields
  | some (Value.str s) => spreadFields target (stringFields s)
  | some (Value.num _) => target
  | none => target

/-- The type-scoped key of `getMappedProps`:
`componentName.charAt(0).toLowerCase() + componentName.slice(1) + 'Props'`. -/
def nameWithProps (componentName : String) : String :=
  String.mk
    (match componentName.data with
     | [] => []
     | c :: rest => Char.toLower c :: rest) ++ "Props"

/-- `getMappedProps` from `src/index.tsx`: when either addressing key is a
non-empty string (JS truthiness of `componentID || componentName`), build
`\x7bid: componentID, ...props[nameWithProps], ...props[componentID]\x7d`;
otherwise return the bag unchanged. -/
def getMappedProps (componentID componentName : String) (props : ComponentProps) :
    ComponentProps :=
  if componentID ≠ "" ∨ componentName ≠ "" then
    spreadValue
      (spreadValue [("id", Value.str componentID)]
        (getKey props (nameWithProps componentName)))
      (getKey props componentID)
  else props

example : nameWithProps "Switch" = "switchProps" := rfl
example : nameWithProps "" = "Props" := rfl
example :
    getMappedProps "x" "Switch"
      [("switchProps", Value.obj [("a", Value.num 1), ("b", Value.num 1)]),
       ("x", Value.obj [("b", Value.num 2), ("c", Value.num 3)])] =
      [("id", Value.str "x"), ("a", Value.num 1), ("b", Value.num 2),
       ("c", Value.num 3)] := rfl

/-- `ReactComponent` from `types.ts` (`ElementType | typeof Fragment`):
the `Fragment` sentinel, opaque caller-supplied components identified by a
name, and the closures returned by `getShape` (constructor argument order:
containerID, componentID, containerName, componentName, Container, Content,
Component; invocation semantics in `render`). -/
inductive ReactComponent : Type where
  | fragment : ReactComponent
  | elementType : String → ReactComponent
  | shape : String → String → String → String →
      ReactComponent → ReactComponent → ReactComponent → ReactComponent
deriving DecidableEq

/-- `getFragmentProps` from `src/index.tsx`: a `Fragment` slot receives the
empty object, any other component receives the given props. -/
def getFragmentProps (component : ReactComponent) (props : ComponentProps) :
    ComponentProps :=
  if component = ReactComponent.fragment then [] else props

/-- `getShape` from `src/index.tsx`.  The TS function takes optional
addressing keys (defaulting to `''`) and optional slots (defaulting to
`Fragment`; a JS `undefined` argument also selects the default, modelled by
`Option.getD`) and returns a closure; the closure is represented by the
`shape` constructor and its body by `render`. -/
def getShape (containerID componentID containerName componentName : String)
    (Container Content Component : Option ReactComponent) : ReactComponent :=
  ReactComponent.shape containerID componentID containerName componentName
    (Container.getD ReactComponent.fragment)
    (Content.getD ReactComponent.fragment)
    (Component.getD ReactComponent.fragment)

/-- `ComponentStructure` from `types.ts`: id, component (type name), and the
optional children list whose presence marks a container. -/
inductive ComponentStructure : Type where
  | mk : String → String → Option (List ComponentStructure) → ComponentStructure

/-- The `id` field of a structure node. -/
def ComponentStructure.id : ComponentStructure → String
  | ComponentStructure.mk i _ _ => i

/-- The `component` field of a structure node. -/
def ComponentStructure.component : ComponentStructure → String
  | ComponentStructure.mk _ c _ => c

/-- The `children` field of a structure node. -/
def ComponentStructure.children :
    ComponentStructure → Option (List ComponentStructure)
  | ComponentStructure.mk _ _ ch => ch

/-- `StructureType` from `types.ts`. -/
abbrev StructureType : Type := List ComponentStructure

/-- `ComponentsMap` from `types.ts`: the registry from type name to
component, modelled as a JS object. -/
abbrev ComponentsMap : Type := List (String × ReactComponent)

/-- JS registry lookup `components[name]`: `none` models `undefined` for a
missing key. -/
def lookupComponent : ComponentsMap → String → Option ReactComponent
  | [], _ => none
  | (k, v) :: rest, name => if k = name then some v else lookupComponent rest name

/-- `getRecursiveHOC` from `src/index.tsx`.  The TS function destructures
`[next, ...other]`; on an empty structure `next` is `undefined` and
`next.children` throws a `TypeError`, modelled by `none`.  A leaf's registry
entry (possibly `undefined`) becomes the `Component` slot of the fold shape;
a container is wrapped in its own shape around the recursive composition of
its children, then spliced in by an addressing-free fold shape.  A throw in
the child composition propagates (`Option.bind`).  The TS tail test
`other.length ? recurse : NextResult` appears here as separate singleton and
cons patterns. -/
def getRecursiveHOC : List ComponentStructure → ComponentsMap →
    ReactComponent → Option ReactComponent
  | [], _, _ => none
  | [ComponentStructure.mk nid ncomp none], components, Result =>
      some (getShape "" nid "" ncomp none (some Result)
        (lookupComponent components ncomp))
  | ComponentStructure.mk nid ncomp none :: o :: os, components, Result =>
      getRecursiveHOC (o :: os) components
        (getShape "" nid "" ncomp none (some Result)
          (lookupComponent components ncomp))
  | [ComponentStructure.mk nid ncomp (some children)], components, Result =>
      (getRecursiveHOC children components ReactComponent.fragment).bind
        (fun childTree =>
          some (getShape "" "" "" "" none (some Result)
            (some (getShape nid "" ncomp "" (lookupComponent components ncomp)
              (some childTree) none))))
  | ComponentStructure.mk nid ncomp (some children) :: o :: os, components, Result =>
      (getRecursiveHOC children components ReactComponent.fragment).bind
        (fun childTree =>
          getRecursiveHOC (o :: os) components
            (getShape "" "" "" "" none (some Result)
              (some (getShape nid "" ncomp "" (lookupComponent components ncomp)
                (some childTree) none))))

/-- The exported default entry point of `src/index.tsx`: `getRecursiveHOC`
with the accumulator defaulted to `Fragment`. -/
def getRecursiveHOCDefault (struct : StructureType) (components : ComponentsMap) :
    Option ReactComponent :=
  getRecursiveHOC struct components ReactComponent.fragment

/-- One node of the element tree produced by invoking a composed component:
an opaque component applied to the props it receives, with the child elements
placed inside it. -/
inductive RenderNode : Type where
  | elem : String → ComponentProps → List RenderNode → RenderNode

/-- Invocation semantics of a `ReactComponent`, as the fully expanded element
forest.  `Fragment` renders nothing by itself; an opaque `elementType` in a
leaf position renders one childless element with its props; a `shape` runs
the closure body of `getShape`: it computes `otherProps`, `componentProps`
and `containerProps` via `getFragmentProps`/`getMappedProps` and renders
`Container` (with `containerProps`) around `Content` (with `otherProps`)
followed by `Component` (with `componentProps`).  A `Fragment` container
disappears, an opaque container becomes an element around the children, and
a composed container runs its own closure (it ignores JSX children). -/
def render : ReactComponent → ComponentProps → List RenderNode
  | ReactComponent.fragment, _ => []
  | ReactComponent.elementType name, props => [RenderNode.elem name props []]
  | ReactComponent.shape cid coid cname coname Cont Ctn Comp, props =>
      match Cont with
      | ReactComponent.fragment =>
          render Ctn (getFragmentProps Ctn props) ++
          render Comp (getFragmentProps Comp (getMappedProps coid coname props))
      | ReactComponent.elementType name =>
          [RenderNode.elem name
            (getFragmentProps (ReactComponent.elementType name)
              (getMappedProps cid cname props))
            (render Ctn (getFragmentProps Ctn props) ++
             render Comp (getFragmentProps Comp (getMappedProps coid coname props)))]
      | ReactComponent.shape a b c d e f g =>
          render (ReactComponent.shape a b c d e f g)
            (getFragmentProps (ReactComponent.shape a b c d e f g)
              (getMappedProps cid cname props))

/-- Rendering a component in a container position with given props and child
elements: `Fragment` is transparent, an opaque component wraps the children,
a composed component runs its closure (ignoring JSX children). -/
def applyContainer : ReactComponent → ComponentProps → List RenderNode →
    List RenderNode
  | ReactComponent.fragment, _, children => children
  | ReactComponent.elementType name, props, children =>
      [RenderNode.elem name props children]
  | ReactComponent.shape a b c d e f g, props, _ =>
      render (ReactComponent.shape a b c d e f g) props

mutual
/-- A structure node all of whose children lists (at every depth) are
non-empty: exactly the trees on which the TS composition never reaches the
throwing empty-destructuring case.  Defined mutually with `wfForest`. -/
def wfNode : ComponentStructure → Bool
  | ComponentStructure.mk _ _ none => true
  | ComponentStructure.mk _ _ (some ch) =>
      !ch.isEmpty && wfForest ch
/-- Every node of the list is well-formed (see `wfNode`). -/
def wfForest : List ComponentStructure → Bool
  | [] => true
  | n :: rest => wfNode n && wfForest rest
end

mutual
/-- Reference rendering of a single structure node under a bag: a leaf
renders its registry entry (default `Fragment`) with its routed props; a
container renders its registry entry, with its routed props, around the
forest of its children. -/
def renderNode (components : ComponentsMap) (bag : ComponentProps) :
    ComponentStructure → List RenderNode
  | ComponentStructure.mk nid ncomp none =>
      render ((lookupComponent components ncomp).getD ReactComponent.fragment)
        (getFragmentProps
          ((lookupComponent components ncomp).getD ReactComponent.fragment)
          (getMappedProps nid ncomp bag))
  | ComponentStructure.mk nid ncomp (some children) =>
      applyContainer
        ((lookupComponent components ncomp).getD ReactComponent.fragment)
        (getFragmentProps
          ((lookupComponent components ncomp).getD ReactComponent.fragment)
          (getMappedProps nid ncomp bag))
        (renderForest components bag children)
/-- Reference rendering of a sibling list, in declaration order. -/
def renderForest (components : ComponentsMap) (bag : ComponentProps) :
    List ComponentStructure → List RenderNode
  | [] => []
  | n :: rest => renderNode components bag n ++ renderForest components bag rest
end

mutual
/-- Fuel needed by `getRecursiveHOCFuel` on a sibling list: one unit per
call, plus the children's fuel for containers. -/
def structureFuel : List ComponentStructure → Nat
  | [] => 1
  | n :: rest => 1 + nodeFuel n + structureFuel rest
/-- Fuel needed to compose one node's children (zero for a leaf). -/
def nodeFuel : ComponentStructure → Nat
  | ComponentStructure.mk _ _ none => 0
  | ComponentStructure.mk _ _ (some ch) => structureFuel ch
end

/-- Step-counting variant of `getRecursiveHOC`: each call consumes one unit
of fuel and otherwise mirrors the TS recursion exactly; the outer `none`
means the fuel ran out, `some r` that the computation finished with result
`r` (where `r = none` still models the TS `TypeError` on an empty list). -/
def getRecursiveHOCFuel : Nat → List ComponentStructure → ComponentsMap →
    ReactComponent → Option (Option ReactComponent)
  | 0, _, _, _ => none
  | _ + 1, [], _, _ => some none
  | fuel + 1, ComponentStructure.mk nid ncomp none :: other, components, Result =>
      let NextComponent := lookupComponent components ncomp
      let NextResult :=
        getShape "" nid "" ncomp none (some Result) NextComponent
      match other with
      | [] => some (some NextResult)
      | o :: os => getRecursiveHOCFuel fuel (o :: os) components NextResult
  | fuel + 1, ComponentStructure.mk nid ncomp (some children) :: other,
      components, Result =>
      match getRecursiveHOCFuel fuel children components ReactComponent.fragment with
      | none => none
      | some none => some none
      | some (some childTree) =>
          let NextComponent := lookupComponent components ncomp
          let Component :=
            getShape nid "" ncomp "" NextComponent (some childTree) none
          let NextResult :=
            getShape "" "" "" "" none (some Result) (some Component)
          match other with
          | [] => some (some NextResult)
          | o :: os => getRecursiveHOCFuel fuel (o :: os) components NextResult

/-! ## Basic lemmas about the slot helpers -/

theorem getFragmentProps_fragment (props : ComponentProps) :
    getFragmentProps ReactComponent.fragment props = [] := rfl

theorem getFragmentProps_of_ne (component : ReactComponent) (props : ComponentProps)
    (h : component ≠ ReactComponent.fragment) :
    getFragmentProps component props = props := by
  simp [getFragmentProps, h]

theorem render_fragment (props : ComponentProps) :
    render ReactComponent.fragment props = [] := rfl

/-- Rendering through `getFragmentProps` never changes the output: a
`Fragment` renders nothing either way, and any other component receives the
props unchanged. -/
theorem render_getFragmentProps (c : ReactComponent) (p : ComponentProps) :
    render c (getFragmentProps c p) = render c p := by
  cases c with
  | fragment => rfl
  | elementType name => simp [getFragmentProps]
  | shape a b c d e f g => simp [getFragmentProps]

theorem getMappedProps_empty_empty (props : ComponentProps) :
    getMappedProps "" "" props = props := rfl

/-- The body of a composed shape, written with `applyContainer`: the
container, with its routed props, is rendered around the content (given the
bag through `getFragmentProps` only) followed by the component (given its
routed props). -/
theorem render_shape_eq (cid coid cname coname : String)
    (Cont Ctn Comp : ReactComponent) (props : ComponentProps) :
    render (ReactComponent.shape cid coid cname coname Cont Ctn Comp) props =
      applyContainer Cont (getFragmentProps Cont (getMappedProps cid cname props))
        (render Ctn (getFragmentProps Ctn props) ++
         render Comp (getFragmentProps Comp (getMappedProps coid coname props))) := by
  cases Cont <;> simp [render, applyContainer, getFragmentProps_fragment]

/-! ## The composition/rendering correspondence -/

theorem wfForest_cons (n : ComponentStructure) (rest : List ComponentStructure)
    (h : wfForest (n :: rest) = true) :
    wfNode n = true ∧ wfForest rest = true := by
  simp only [wfForest, Bool.and_eq_true] at h
  exact h

theorem wfNode_container (nid ncomp : String) (ch : List ComponentStructure)
    (h : wfNode (ComponentStructure.mk nid ncomp (some ch)) = true) :
    ch ≠ [] ∧ wfForest ch = true := by
  simp only [wfNode, Bool.and_eq_true, Bool.not_eq_true'] at h
  obtain ⟨h1, h2⟩ := h
  refine ⟨?_, h2⟩
  intro hnil
  subst hnil
  simp [List.isEmpty] at h1

/-- The accumulator shape built by the fold for a leaf node renders the
accumulator followed by the node's reference rendering. -/
theorem render_fold_leaf (components : ComponentsMap) (nid ncomp : String)
    (R : ReactComponent) (bag : ComponentProps) :
    render (getShape "" nid "" ncomp none (some R) (lookupComponent components ncomp)) bag =
      render R bag ++ renderNode components bag (ComponentStructure.mk nid ncomp none) := by
  have h1 : getShape "" nid "" ncomp none (some R) (lookupComponent components ncomp)
      = ReactComponent.shape "" nid "" ncomp ReactComponent.fragment R
          ((lookupComponent components ncomp).getD ReactComponent.fragment) := rfl
  rw [h1, render_shape_eq]
  simp only [applyContainer, renderNode, render_getFragmentProps]

/-- The accumulator shape built by the fold for a container node renders the
accumulator followed by the node's reference rendering, provided the child
composition renders the children forest. -/
theorem render_fold_container (components : ComponentsMap) (nid ncomp : String)
    (children : List ComponentStructure) (R cu : ReactComponent)
    (hcu : ∀ bag, render cu bag = renderForest components bag children)
    (bag : ComponentProps) :
    render (getShape "" "" "" "" none (some R)
        (some (getShape nid "" ncomp "" (lookupComponent components ncomp)
          (some cu) none))) bag =
      render R bag ++
        renderNode components bag (ComponentStructure.mk nid ncomp (some children)) := by
  have h1 : getShape "" "" "" "" none (some R)
        (some (getShape nid "" ncomp "" (lookupComponent components ncomp)
          (some cu) none))
      = ReactComponent.shape "" "" "" "" ReactComponent.fragment R
          (ReactComponent.shape nid "" ncomp ""
            ((lookupComponent components ncomp).getD ReactComponent.fragment) cu
            ReactComponent.fragment) := rfl
  rw [h1, render_shape_eq]
  simp only [applyContainer]
  rw [getMappedProps_empty_empty]
  have h2 : getFragmentProps
      (ReactComponent.shape nid "" ncomp ""
        ((lookupComponent components ncomp).getD ReactComponent.fragment) cu
        ReactComponent.fragment) bag = bag :=
    getFragmentProps_of_ne _ _ (by simp)
  rw [h2, render_shape_eq]
  simp only [render_getFragmentProps, render_fragment, List.append_nil,
    renderNode]
  rw [hcu]

/-- Size-indexed form of the correspondence between `getRecursiveHOC` and the
reference renderer: on a non-empty structure whose children lists are all
non-empty, the fold succeeds and its result renders the accumulator followed
by the structure's forest, for every bag. -/
theorem getRecursiveHOC_renders (n : Nat) :
    ∀ (s : List ComponentStructure), sizeOf s ≤ n →
    ∀ (components : ComponentsMap) (R : ReactComponent),
      s ≠ [] → wfForest s = true →
      ∃ u, getRecursiveHOC s components R = some u ∧
        ∀ bag, render u bag = render R bag ++ renderForest components bag s := by
  induction n with
  | zero =>
      intro s hs _ _ hne _
      cases s with
      | nil => exact absurd rfl hne
      | cons a l =>
          simp only [List.cons.sizeOf_spec] at hs
          omega
  | succ n ih =>
      intro s hs components R hne hwf
      cases s with
      | nil => exact absurd rfl hne
      | cons head other =>
        obtain ⟨hwfn, hwfo⟩ := wfForest_cons head other hwf
        cases head with
        | mk nid ncomp chOpt =>
          cases chOpt with
          | none =>
              cases other with
              | nil =>
                  refine ⟨getShape "" nid "" ncomp none (some R)
                    (lookupComponent components ncomp), ?_, ?_⟩
                  · simp [getRecursiveHOC]
                  · intro bag
                    rw [render_fold_leaf]
                    simp [renderForest]
              | cons o os =>
                  have hsz : sizeOf (o :: os) ≤ n := by
                    simp only [List.cons.sizeOf_spec,
                      ComponentStructure.mk.sizeOf_spec] at hs ⊢
                    omega
                  obtain ⟨u, hu, hr⟩ := ih (o :: os) hsz components
                    (getShape "" nid "" ncomp none (some R)
                      (lookupComponent components ncomp)) (by simp) hwfo
                  refine ⟨u, ?_, ?_⟩
                  · simp only [getRecursiveHOC]
                    exact hu
                  · intro bag
                    rw [hr bag, render_fold_leaf]
                    simp [renderForest, List.append_assoc]
          | some children =>
              obtain ⟨hchne, hchwf⟩ := wfNode_container nid ncomp children hwfn
              have hszch : sizeOf children ≤ n := by
                simp only [List.cons.sizeOf_spec,
                  ComponentStructure.mk.sizeOf_spec, Option.some.sizeOf_spec] at hs
                omega
              obtain ⟨cu, hcu_eq, hcu_r⟩ := ih children hszch components
                ReactComponent.fragment hchne hchwf
              have hcu : ∀ bag, render cu bag = renderForest components bag children := by
                intro bag
                rw [hcu_r bag, render_fragment]
                simp
              cases other with
              | nil =>
                  refine ⟨getShape "" "" "" "" none (some R)
                    (some (getShape nid "" ncomp ""
                      (lookupComponent components ncomp) (some cu) none)), ?_, ?_⟩
                  · simp [getRecursiveHOC, hcu_eq]
                  · intro bag
                    rw [render_fold_container components nid ncomp children R cu hcu bag]
                    simp [renderForest]
              | cons o os =>
                  have hsz : sizeOf (o :: os) ≤ n := by
                    simp only [List.cons.sizeOf_spec,
                      ComponentStructure.mk.sizeOf_spec] at hs ⊢
                    omega
                  obtain ⟨u, hu, hr⟩ := ih (o :: os) hsz components
                    (getShape "" "" "" "" none (some R)
                      (some (getShape nid "" ncomp ""
                        (lookupComponent components ncomp) (some cu) none)))
                    (by simp) hwfo
                  refine ⟨u, ?_, ?_⟩
                  · simp only [getRecursiveHOC, hcu_eq, Option.some_bind]
                    exact hu
                  · intro bag
                    rw [hr bag,
                      render_fold_container components nid ncomp children R cu hcu bag]
                    simp [renderForest, List.append_assoc]

/-- Correspondence between `getRecursiveHOC` and the reference renderer, the
workhorse behind the behavioural claims: for every non-empty structure whose
children lists are all non-empty, every registry, and every accumulator, the
composition succeeds and the composed unit renders the accumulator's output
followed by the nodes of the structure in declaration order, at every depth,
for every property bag. -/
theorem getRecursiveHOC_render_spec (s : List ComponentStructure)
    (components : ComponentsMap) (R : ReactComponent)
    (hne : s ≠ []) (hwf : wfForest s = true) :
    ∃ u, getRecursiveHOC s components R = some u ∧
      ∀ bag, render u bag = render R bag ++ renderForest components bag s :=
  getRecursiveHOC_renders (sizeOf s) s le_rfl components R hne hwf

/-! ## The claims -/

/-- C1.  Prop-routing precedence: for every node of type `T` with id `X`
(routing active, i.e. not both keys empty) and every property bag whose
type-scoped key holds `\x7ba:1,b:1\x7d` and whose id key holds
`\x7bb:2,c:3\x7d`, the routed props are exactly
`\x7bid:X, a:1, b:2, c:3\x7d` — the bag's value at `lowerFirst(T)+"Props"`
is merged over `\x7bid:X\x7d` and the bag's value at `X` over that, later
entries overwriting earlier ones, so the id-level `b` overrides the
type-level `b`. -/
theorem claim_C1_precedence (X T : String) (bag : ComponentProps)
    (h : X ≠ "" ∨ T ≠ "")
    (ht : getKey bag (nameWithProps T) =
      some (Value.obj [("a", Value.num 1), ("b", Value.num 1)]))
    (hx : getKey bag X = some (Value.obj [("b", Value.num 2), ("c", Value.num 3)])) :
    getMappedProps X T bag =
      [("id", Value.str X), ("a", Value.num 1), ("b", Value.num 2),
       ("c", Value.num 3)] := by
  unfold getMappedProps
  rw [if_pos h, ht, hx]
  rfl

theorem claim_C1_precedence_witness :
    getMappedProps "x" "Switch"
      [("switchProps", Value.obj [("a", Value.num 1), ("b", Value.num 1)]),
       ("x", Value.obj [("b", Value.num 2), ("c", Value.num 3)])] =
      [("id", Value.str "x"), ("a", Value.num 1), ("b", Value.num 2),
       ("c", Value.num 3)] :=
  claim_C1_precedence "x" "Switch" _ (Or.inl (by decide)) rfl rfl

/-- C3.  Content-slot pass-through: routing with neither a node id nor a
type name (both empty) returns the input bag unchanged, and in every shape
the Content slot is invoked with exactly the bag the shape itself received —
never a filtered, split or narrowed version (only the Container and
Component slots go through `getMappedProps`). -/
theorem claim_C3_content_passthrough :
    (∀ props : ComponentProps, getMappedProps "" "" props = props) ∧
    (∀ (cid coid cname coname : String) (Cont Ctn Comp : ReactComponent)
       (props : ComponentProps),
       render (ReactComponent.shape cid coid cname coname Cont Ctn Comp) props =
         applyContainer Cont (getFragmentProps Cont (getMappedProps cid cname props))
           (render Ctn props ++
            render Comp (getFragmentProps Comp (getMappedProps coid coname props)))) := by
  constructor
  · intro props
    rfl
  · intro cid coid cname coname Cont Ctn Comp props
    rw [render_shape_eq, render_getFragmentProps]

/-- C7.  Null-renderable prop isolation: a slot bound to the null renderable
(`Fragment`) always receives the empty property bag — in particular even when
addressing keys would otherwise route props to it — and renders nothing. -/
theorem claim_C7_null_renderable_empty_props :
    (∀ props : ComponentProps, getFragmentProps ReactComponent.fragment props = []) ∧
    (∀ (cid cname : String) (props : ComponentProps),
       getFragmentProps ReactComponent.fragment (getMappedProps cid cname props) = []) ∧
    (∀ props : ComponentProps, render ReactComponent.fragment props = []) :=
  ⟨fun _ => rfl, fun _ _ _ => rfl, fun _ => rfl⟩

/-- C9.  Empty-string addressing falls through to pass-through: routing with
both keys `""` returns the bag unchanged, and a leaf node whose id and
component name are both `""` (with a registry entry under `""`) receives the
entire top-level bag rather than a routed subset containing an `id` field. -/
theorem claim_C9_empty_string_passthrough :
    (∀ props : ComponentProps, getMappedProps "" "" props = props) ∧
    (∀ (components : ComponentsMap) (R : ReactComponent) (name : String),
       lookupComponent components "" = some (ReactComponent.elementType name) →
       ∃ u, getRecursiveHOC [ComponentStructure.mk "" "" none] components R = some u ∧
         ∀ bag, render u bag = render R bag ++ [RenderNode.elem name bag []]) := by
  constructor
  · intro props
    rfl
  · intro components R name hlook
    refine ⟨getShape "" "" "" "" none (some R) (lookupComponent components ""), ?_, ?_⟩
    · simp [getRecursiveHOC]
    · intro bag
      rw [render_fold_leaf]
      simp [renderNode, hlook, getFragmentProps, render, getMappedProps_empty_empty]

theorem claim_C9_empty_string_passthrough_witness :
    ∃ u, getRecursiveHOC [ComponentStructure.mk "" "" none]
        [("", ReactComponent.elementType "Leaf")] ReactComponent.fragment = some u ∧
      ∀ bag, render u bag =
        render ReactComponent.fragment bag ++ [RenderNode.elem "Leaf" bag []] :=
  claim_C9_empty_string_passthrough.2 [("", ReactComponent.elementType "Leaf")]
    ReactComponent.fragment "Leaf" rfl

/-- C2.  Order preservation: within every shape the Content slot renders
before the Component slot; a three-sibling forest renders `a`'s subtree, then
`b`'s, then `c`'s; and for every non-empty structure (all children lists
non-empty) the composed unit renders the accumulator followed by the nodes
in declaration order at every depth, for every property bag. -/
theorem claim_C2_order_preservation :
    (∀ (cid coid cname coname : String) (Cont Ctn Comp : ReactComponent)
       (props : ComponentProps),
       render (ReactComponent.shape cid coid cname coname Cont Ctn Comp) props =
         applyContainer Cont (getFragmentProps Cont (getMappedProps cid cname props))
           (render Ctn (getFragmentProps Ctn props) ++
            render Comp (getFragmentProps Comp (getMappedProps coid coname props)))) ∧
    (∀ (components : ComponentsMap) (bag : ComponentProps)
       (a b c : ComponentStructure),
       renderForest components bag [a, b, c] =
         renderNode components bag a ++ renderNode components bag b ++
           renderNode components bag c) ∧
    (∀ (s : List ComponentStructure) (components : ComponentsMap)
       (R : ReactComponent), s ≠ [] → wfForest s = true →
       ∃ u, getRecursiveHOC s components R = some u ∧
         ∀ bag, render u bag = render R bag ++ renderForest components bag s) := by
  refine ⟨?_, ?_, ?_⟩
  · intro cid coid cname coname Cont Ctn Comp props
    exact render_shape_eq cid coid cname coname Cont Ctn Comp props
  · intro components bag a b c
    simp [renderForest, List.append_assoc]
  · intro s components R hne hwf
    exact getRecursiveHOC_render_spec s components R hne hwf

theorem claim_C2_order_preservation_witness :
    ∃ u, getRecursiveHOC
        [ComponentStructure.mk "a" "A" none, ComponentStructure.mk "b" "B" none]
        [("A", ReactComponent.elementType "A"), ("B", ReactComponent.elementType "B")]
        ReactComponent.fragment = some u ∧
      ∀ bag, render u bag =
        render ReactComponent.fragment bag ++
          renderForest
            [("A", ReactComponent.elementType "A"), ("B", ReactComponent.elementType "B")]
            bag
            [ComponentStructure.mk "a" "A" none, ComponentStructure.mk "b" "B" none] :=
  claim_C2_order_preservation.2.2
    [ComponentStructure.mk "a" "A" none, ComponentStructure.mk "b" "B" none]
    [("A", ReactComponent.elementType "A"), ("B", ReactComponent.elementType "B")]
    ReactComponent.fragment (by simp) (by simp [wfForest, wfNode])

/-- C6.  Unknown-type fail-quiet: when a node's type name is absent from the
registry, composing it does not raise; the missing entry resolves to
`undefined`, the slot defaults to the null renderable (`Fragment`), receives
the empty property bag, and renders nothing (a leaf contributes no output at
all; a container becomes a transparent wrapper around its children). -/
theorem claim_C6_unknown_type_fail_quiet (nid ncomp : String)
    (components : ComponentsMap) (R : ReactComponent)
    (hmiss : lookupComponent components ncomp = none) :
    (∃ u, getRecursiveHOC [ComponentStructure.mk nid ncomp none] components R =
        some u ∧ ∀ bag, render u bag = render R bag) ∧
    (∀ bag : ComponentProps,
       renderNode components bag (ComponentStructure.mk nid ncomp none) = [] ∧
       getFragmentProps ReactComponent.fragment (getMappedProps nid ncomp bag) = []) ∧
    (∀ (bag : ComponentProps) (ch : List ComponentStructure),
       renderNode components bag (ComponentStructure.mk nid ncomp (some ch)) =
         renderForest components bag ch) := by
  refine ⟨⟨getShape "" nid "" ncomp none (some R) (lookupComponent components ncomp),
    ?_, ?_⟩, ?_, ?_⟩
  · simp [getRecursiveHOC]
  · intro bag
    rw [render_fold_leaf]
    simp [renderNode, hmiss, render_fragment]
  · intro bag
    exact ⟨by simp [renderNode, hmiss, render_fragment], rfl⟩
  · intro bag ch
    simp [renderNode, hmiss, applyContainer]

theorem claim_C6_unknown_type_fail_quiet_witness :
    (∃ u, getRecursiveHOC [ComponentStructure.mk "n" "Missing" none] []
        ReactComponent.fragment = some u ∧
      ∀ bag, render u bag = render ReactComponent.fragment bag) ∧
    (∀ bag : ComponentProps,
       renderNode [] bag (ComponentStructure.mk "n" "Missing" none) = [] ∧
       getFragmentProps ReactComponent.fragment (getMappedProps "n" "Missing" bag) = []) ∧
    (∀ (bag : ComponentProps) (ch : List ComponentStructure),
       renderNode [] bag (ComponentStructure.mk "n" "Missing" (some ch)) =
         renderForest [] bag ch) :=
  claim_C6_unknown_type_fail_quiet "n" "Missing" [] ReactComponent.fragment rfl

/-- C8, counterexample.  Two leaf nodes share the id `"x"` but have
different type names `"A"` and `"B"`; the bag contains the key `"x"` and a
type-scoped entry `aProps`.  The composed tree renders the two nodes with
DIFFERENT routed props (`\x7bid, q, v\x7d` vs `\x7bid, v\x7d`): sharing an
id alone does not give identical routed props when the type-scoped defaults
differ. -/
theorem claim_C8_counterexample :
    getRecursiveHOC
        [ComponentStructure.mk "x" "A" none, ComponentStructure.mk "x" "B" none]
        [("A", ReactComponent.elementType "A"), ("B", ReactComponent.elementType "B")]
        ReactComponent.fragment =
      some (ReactComponent.shape "" "x" "" "B" ReactComponent.fragment
        (ReactComponent.shape "" "x" "" "A" ReactComponent.fragment
          ReactComponent.fragment (ReactComponent.elementType "A"))
        (ReactComponent.elementType "B")) ∧
    render (ReactComponent.shape "" "x" "" "B" ReactComponent.fragment
        (ReactComponent.shape "" "x" "" "A" ReactComponent.fragment
          ReactComponent.fragment (ReactComponent.elementType "A"))
        (ReactComponent.elementType "B"))
      [("x", Value.obj [("v", Value.num 1)]), ("aProps", Value.obj [("q", Value.num 1)])] =
      [RenderNode.elem "A"
        [("id", Value.str "x"), ("q", Value.num 1), ("v", Value.num 1)] [],
       RenderNode.elem "B" [("id", Value.str "x"), ("v", Value.num 1)] []] ∧
    getMappedProps "x" "A"
        [("x", Value.obj [("v", Value.num 1)]), ("aProps", Value.obj [("q", Value.num 1)])] ≠
      getMappedProps "x" "B"
        [("x", Value.obj [("v", Value.num 1)]), ("aProps", Value.obj [("q", Value.num 1)])] := by
  refine ⟨by simp [getRecursiveHOC, getShape, lookupComponent], rfl, ?_⟩
  intro h
  exact absurd (congrArg List.length h) (by decide)

/-- C8, amended.  Id-sharing broadcast holds for nodes that share both id
and type name: wherever such a node sits (here one at top level and one
inside an arbitrary unrelated container), its rendered contribution is the
same term `renderNode components bag (mk X T none)` — identical routed props
for every bag — because routing depends only on the node's id, its type
name and the bag, never on its position. -/
theorem claim_C8_amended (X T cid cn : String) (components : ComponentsMap)
    (R : ReactComponent) :
    ∃ u, getRecursiveHOC
        [ComponentStructure.mk X T none,
         ComponentStructure.mk cid cn (some [ComponentStructure.mk X T none])]
        components R = some u ∧
      ∀ bag, render u bag =
        render R bag ++ renderNode components bag (ComponentStructure.mk X T none) ++
          applyContainer ((lookupComponent components cn).getD ReactComponent.fragment)
            (getFragmentProps
              ((lookupComponent components cn).getD ReactComponent.fragment)
              (getMappedProps cid cn bag))
            (renderNode components bag (ComponentStructure.mk X T none)) := by
  obtain ⟨u, hu, hr⟩ := getRecursiveHOC_render_spec
    [ComponentStructure.mk X T none,
     ComponentStructure.mk cid cn (some [ComponentStructure.mk X T none])]
    components R (by simp) (by simp [wfForest, wfNode])
  refine ⟨u, hu, ?_⟩
  intro bag
  rw [hr bag]
  simp [renderForest, renderNode, List.append_assoc]

/-- C4, counterexample.  `getRecursiveHOC` applied to an empty sibling list
does NOT return the accumulator: it throws (`none`, the `TypeError` from
destructuring `undefined`), and composing a container whose children
sequence is empty throws the same way at composition time. -/
theorem claim_C4_counterexample :
    getRecursiveHOC ([] : List ComponentStructure) [] ReactComponent.fragment =
      none ∧
    getRecursiveHOC ([] : List ComponentStructure) [] ReactComponent.fragment ≠
      some ReactComponent.fragment ∧
    getRecursiveHOC [ComponentStructure.mk "row" "Box" (some [])]
      [("Box", ReactComponent.elementType "Box")] ReactComponent.fragment = none := by
  refine ⟨by simp [getRecursiveHOC], by simp [getRecursiveHOC], ?_⟩
  simp [getRecursiveHOC]

/-- C4, amended.  On an empty sibling list `getRecursiveHOC` raises a
`TypeError` (modelled `none`) instead of returning the accumulator, for
every registry and accumulator; consequently composing a container with an
empty children sequence raises at composition time.  (The accumulator is
returned unchanged only in the sense that the fold stops when the tail
after the last element is empty.) -/
theorem claim_C4_amended (components : ComponentsMap) (R : ReactComponent)
    (nid ncomp : String) :
    getRecursiveHOC [] components R = none ∧
    getRecursiveHOC [ComponentStructure.mk nid ncomp (some [])] components R =
      none := by
  constructor
  · simp [getRecursiveHOC]
  · simp [getRecursiveHOC]

/-- C5, counterexample.  A non-mapping value at the type-scoped key is not
always skipped: JS object-spread of a STRING contributes one key per
character index.  With `switchProps` bound to the string `"ab"`, the routed
props are `\x7bid:"x", "0":"a", "1":"b"\x7d`, not `\x7bid:"x"\x7d` — the
malformed entry does contribute keys. -/
theorem claim_C5_counterexample :
    getMappedProps "x" "Switch" [("switchProps", Value.str "ab")] =
      [("id", Value.str "x"), ("0", Value.str "a"), ("1", Value.str "b")] ∧
    getMappedProps "x" "Switch" [("switchProps", Value.str "ab")] ≠
      [("id", Value.str "x")] := by
  refine ⟨rfl, ?_⟩
  intro h
  exact absurd (congrArg List.length h) (by decide)

/-- C5, amended.  Malformed (non-mapping) values at the scoped keys never
make routing raise.  A number or an absent value is skipped and contributes
no keys; a string value, however, is spread shallowly like any JS value and
contributes its character-index keys. -/
theorem claim_C5_amended :
    (∀ (target : ComponentProps) (n : Int),
       spreadValue target (some (Value.num n)) = target) ∧
    (∀ target : ComponentProps, spreadValue target none = target) ∧
    (∀ (X T : String) (bag : ComponentProps) (n m : Int),
       (X ≠ "" ∨ T ≠ "") →
       getKey bag (nameWithProps T) = some (Value.num n) →
       getKey bag X = some (Value.num m) →
       getMappedProps X T bag = [("id", Value.str X)]) ∧
    (∀ (X T : String) (bag : ComponentProps) (s : String),
       (X ≠ "" ∨ T ≠ "") →
       getKey bag (nameWithProps T) = some (Value.str s) →
       getKey bag X = none →
       getMappedProps X T bag = spreadFields [("id", Value.str X)] (stringFields s)) := by
  refine ⟨fun _ _ => rfl, fun _ => rfl, ?_, ?_⟩
  · intro X T bag n m h h1 h2
    unfold getMappedProps
    rw [if_pos h, h1, h2]
    rfl
  · intro X T bag s h h1 h2
    unfold getMappedProps
    rw [if_pos h, h1, h2]
    rfl

theorem claim_C5_amended_witness :
    getMappedProps "x" "Switch" [("switchProps", Value.num 5), ("x", Value.num 7)] =
      [("id", Value.str "x")] :=
  claim_C5_amended.2.2.1 "x" "Switch"
    [("switchProps", Value.num 5), ("x", Value.num 7)] 5 7
    (Or.inl (by decide)) rfl rfl

theorem structureFuel_pos (s : List ComponentStructure) : 1 ≤ structureFuel s := by
  cases s with
  | nil => simp [structureFuel]
  | cons n rest =>
      simp only [structureFuel]
      omega

/-- C10.  Termination of composition: `getRecursiveHOCFuel` is a
step-counting mirror of `getRecursiveHOC` whose calls each consume one unit
of fuel, and `structureFuel s` units always suffice to finish — each
recursive call operates either on the strict tail of the sibling list or on
the head's children, so the computation terminates on every finite
structure (and on non-empty well-formed ones it terminates with a result,
see the composition/rendering correspondence). -/
theorem claim_C10_termination (fuel : Nat) :
    ∀ (s : List ComponentStructure) (components : ComponentsMap)
      (R : ReactComponent), structureFuel s ≤ fuel →
      getRecursiveHOCFuel fuel s components R =
        some (getRecursiveHOC s components R) := by
  induction fuel with
  | zero =>
      intro s components R h
      have := structureFuel_pos s
      omega
  | succ fuel ih =>
      intro s components R h
      cases s with
      | nil => simp [getRecursiveHOCFuel, getRecursiveHOC]
      | cons head other =>
        cases head with
        | mk nid ncomp chOpt =>
          cases chOpt with
          | none =>
              cases other with
              | nil => simp [getRecursiveHOCFuel, getRecursiveHOC]
              | cons o os =>
                  have hf : structureFuel (o :: os) ≤ fuel := by
                    simp only [structureFuel, nodeFuel] at h ⊢
                    omega
                  simp only [getRecursiveHOCFuel, getRecursiveHOC]
                  exact ih (o :: os) components _ hf
          | some children =>
              have hfc : structureFuel children ≤ fuel := by
                simp only [structureFuel, nodeFuel] at h
                omega
              have hchild := ih children components ReactComponent.fragment hfc
              cases other with
              | nil =>
                  simp only [getRecursiveHOCFuel, getRecursiveHOC, hchild]
                  cases getRecursiveHOC children components ReactComponent.fragment with
                  | none => rfl
                  | some childTree => rfl
              | cons o os =>
                  have hf : structureFuel (o :: os) ≤ fuel := by
                    simp only [structureFuel, nodeFuel] at h ⊢
                    omega
                  simp only [getRecursiveHOCFuel, getRecursiveHOC, hchild]
                  cases getRecursiveHOC children components ReactComponent.fragment with
                  | none => rfl
                  | some childTree => exact ih (o :: os) components _ hf

theorem claim_C10_termination_witness :
    getRecursiveHOCFuel 2 [ComponentStructure.mk "a" "A" none] []
        ReactComponent.fragment =
      some (getRecursiveHOC [ComponentStructure.mk "a" "A" none] []
        ReactComponent.fragment) :=
  claim_C10_termination 2 [ComponentStructure.mk "a" "A" none] []
    ReactComponent.fragment (by simp [structureFuel, nodeFuel])
